import Mathlib

/-!
Shallow embedding of `script.py` from the SATPlanner benchmarking harness,
together with proofs of the specified properties.

The harness is a single Python file.  Pure computations (output parsing,
problem selection, result sorting, figure naming) are embedded directly as
Lean functions.  Effectful parts (subprocess execution, directory listing,
build tools) are modelled by explicit environment values passed as arguments:
an `ExecOutcome` stands for what the spawned child process did, a
`BuildEnv` for what the two build tools did, and a listing function for
`os.listdir`.  Python exceptions are modelled with `Except`, floats
(wall-clock seconds) with `ℚ`, and `None` with `Option`.
-/

/-- Whitespace characters removed by Python's `str.strip()` (the common ASCII
whitespace set; rarer Unicode whitespace is not modelled). -/
def pyIsSpace (c : Char) : Bool :=
  c = ' ' || c = '\t' || c = '\n' || c = '\r' || c = '\x0b' || c = '\x0c'

/-- Python's `str.strip()`: drop leading and trailing whitespace. -/
def pyStrip (s : String) : String :=
  String.mk (((s.data.dropWhile pyIsSpace).reverse.dropWhile pyIsSpace).reverse)

/-- Helper for `splitlines`: accumulate the current line (reversed) and split
at line boundaries. -/
def splitlinesAux : List Char → List Char → List (List Char)
  | [], acc => if acc.isEmpty then [] else [acc.reverse]
  | '\r' :: '\n' :: rest, acc => acc.reverse :: splitlinesAux rest []
  | '\n' :: rest, acc => acc.reverse :: splitlinesAux rest []
  | '\r' :: rest, acc => acc.reverse :: splitlinesAux rest []
  | c :: rest, acc => splitlinesAux rest (c :: acc)

/-- Python's `str.splitlines()`: split at line boundaries (newline, carriage
return, and the two-character sequence), with no trailing empty line for a
terminating newline.  Rarer Unicode line boundaries are not modelled. -/
def splitlines (s : String) : List String :=
  (splitlinesAux s.data []).map String.mk

/-- Python's `int()` on a string of decimal digits. -/
def digitsToNat (cs : List Char) : Nat :=
  cs.foldl (fun n c => 10 * n + (c.toNat - '0'.toNat)) 0

/-- The regex match `step_pattern.match(line.strip())` for the pattern
anchored digits-then-colon (from `extract_makespan` in `script.py`):
`re.match` succeeds when the stripped line starts with one or more digits
followed by a colon, and group 1 is the digit run.  Returns the parsed step
number. -/
def matchStep (line : String) : Option Nat :=
  let cs := (pyStrip line).data
  let digits := cs.takeWhile Char.isDigit
  match digits, cs.drop digits.length with
  | _ :: _, ':' :: _ => some (digitsToNat digits)
  | _, _ => none

/-- Embedding of `extract_makespan` from `script.py`: fold over the lines of
the output keeping the largest matched step number (starting from `-1`), then
return one plus the maximum if any line matched, else `None`. -/
def extract_makespan (output : String) : Option Nat :=
  let max_step : Int :=
    (splitlines output).foldl
      (fun max_step line =>
        match matchStep line with
        | some step_num =>
            if (step_num : Int) > max_step then (step_num : Int) else max_step
        | none => max_step)
      (-1)
  if max_step ≥ 0 then some (max_step + 1).toNat else none

/-- The step numbers matched on the lines of an output, in line order (the
specification's "integers N over all lines matching N-colon"). -/
def matchedSteps (output : String) : List Nat :=
  (splitlines output).filterMap matchStep

/-- Outcome of the spawned child process in `run_planner` (the call to
`subprocess.run` plus the `stdout.decode()`): either it completed within the
timeout and its standard output decoded to the given text, or it hit the
600-second timeout, or some other exception occurred (missing executable,
decode failure, ...) carrying the exception's message. -/
inductive ExecOutcome where
  | completed (stdout : String)
  | timedOut
  | failed (msg : String)
deriving DecidableEq

/-- Python exceptions that can escape the `try` block of `run_planner`. -/
inductive PyExc where
  | valueError (msg : String)
  | timeoutExpired
  | other (msg : String)
deriving DecidableEq

/-- Message text of an exception, as interpolated by the `except` handler. -/
def excMessage : PyExc → String
  | .valueError m => m
  | .timeoutExpired => "timeout"
  | .other m => m

/-- The `try` block of `run_planner` in `script.py`.  Command-line
construction (paths, working directories) only affects the external process,
which is abstracted by `outcome`; the control flow is kept: an invalid
`planner_type` raises `ValueError` before the subprocess is spawned, a
timeout raises `TimeoutExpired`, any other failure raises some other
exception, and on normal completion the elapsed wall-clock time and the
makespan extracted from the decoded stdout are returned. -/
def run_planner_try (planner_type : String) (outcome : ExecOutcome)
    (elapsed : ℚ) : Except PyExc (Option ℚ × Option Nat) :=
  if planner_type = "HSP" ∨ planner_type = "SAT" then
    match outcome with
    | .completed stdout => .ok (some elapsed, extract_makespan stdout)
    | .timedOut => .error .timeoutExpired
    | .failed msg => .error (.other msg)
  else
    .error (.valueError "Invalid planner type")

/-- Value returned by `run_planner`, together with the console messages it
printed on the failure paths (the success-path prints of the raw runtime and
makespan values are elided). -/
structure PlannerReturn where
  runtime : Option ℚ
  makespan : Option Nat
  log : List String
deriving DecidableEq

/-- Embedding of `run_planner` from `script.py`: the `try` block wrapped in
its two `except` handlers.  `except subprocess.TimeoutExpired` prints the
timeout message and returns `(None, None)`; the generic `except Exception`
prints the error message and returns `(None, None)`.  The function is total:
no exception propagates to the caller. -/
def run_planner (planner_type problem_file : String) (outcome : ExecOutcome)
    (elapsed : ℚ) : PlannerReturn :=
  match run_planner_try planner_type outcome elapsed with
  | .ok (runtime, makespan) =>
      { runtime := runtime, makespan := makespan, log := [] }
  | .error .timeoutExpired =>
      { runtime := none, makespan := none,
        log := ["Timeout: " ++ planner_type ++ " on " ++ problem_file] }
  | .error e =>
      { runtime := none, makespan := none,
        log := ["Error running " ++ planner_type ++ " on " ++ problem_file
                  ++ ": " ++ excMessage e] }

/-- The `domain_limits` dictionary of `compare_domain` in `script.py`. -/
def domain_limits : List (String × Nat) :=
  [("blocksworld", 10), ("gripper", 4), ("depot", 2), ("logistics", 2)]

/-- Python's `domain_limits.get(domain_name, 5)`: the configured instance
limit, defaulting to 5 when the domain is not in the dictionary. -/
def limitFor (domain_name : String) : Nat :=
  (domain_limits.lookup domain_name).getD 5

/-- Python's `f.startswith("p")`: code-point prefix test. -/
def pyStartsWith (s pre : String) : Bool :=
  pre.data.isPrefixOf s.data

/-- Python's string comparison `<`: lexicographic comparison of the code
points of the two strings. -/
def pyCharsLt : List Char → List Char → Bool
  | [], [] => false
  | [], _ :: _ => true
  | _ :: _, [] => false
  | a :: as, b :: bs =>
      if a.toNat < b.toNat then true
      else if b.toNat < a.toNat then false
      else pyCharsLt as bs

/-- The non-strict comparison induced by Python's `<` on strings: `a ≤ b`
iff `b < a` fails.  A stable sort with this relation is extensionally the
same as Python's stable `sorted`. -/
def strLE (a b : String) : Prop := pyCharsLt b.data a.data = false

instance : DecidableRel strLE := fun _ _ =>
  inferInstanceAs (Decidable (_ = false))

/-- Problem selection of `compare_domain` in `script.py`: filter the
directory listing to filenames starting with "p", sort, and truncate to the
domain's limit.  Python's built-in sort is stable; it is modelled by stable
insertion sort over the lexicographic order on strings. -/
def selectProblems (domain_name : String) (listing : List String) :
    List String :=
  (List.insertionSort strLE
    (listing.filter (fun f => pyStartsWith f "p"))).take (limitFor domain_name)

/-- One collected result row: `(problem_file, runtime, makespan)`. -/
abbrev RunResult := String × Option ℚ × Option Nat

/-- The per-domain `results` dictionary of `compare_domain`: one ordered
sequence of `RunResult` per planner label. -/
structure DomainResults where
  hsp : List RunResult
  sat : List RunResult
deriving DecidableEq

/-- Result of running `compare_domain` on one domain, with instrumentation:
`invocations` records each `run_planner` call made, in order, as a
`(planner_type, problem_file)` pair. -/
structure DomainRun where
  results : DomainResults
  invocations : List (String × String)
deriving DecidableEq

/-- Embedding of the loop of `compare_domain` in `script.py`: for each
selected problem file, run HSP then SAT and append one result row to each
per-planner sequence.  `env` gives, per planner label and problem file, the
child-process outcome and the measured wall-clock time of that invocation. -/
def compare_domain (domain_name : String) (listing : List String)
    (env : String → String → ExecOutcome × ℚ) : DomainRun :=
  (selectProblems domain_name listing).foldl
    (fun acc problem_file =>
      let hspRun := run_planner "HSP" problem_file
        (env "HSP" problem_file).1 (env "HSP" problem_file).2
      let satRun := run_planner "SAT" problem_file
        (env "SAT" problem_file).1 (env "SAT" problem_file).2
      { results :=
          { hsp := acc.results.hsp
              ++ [(problem_file, hspRun.runtime, hspRun.makespan)],
            sat := acc.results.sat
              ++ [(problem_file, satRun.runtime, satRun.makespan)] },
        invocations := acc.invocations
          ++ [("HSP", problem_file), ("SAT", problem_file)] })
    ⟨⟨[], []⟩, []⟩

/-- Sort key of `plot_results` in `script.py`: `x[1] if x[1] is not None
else float("inf")` compared with `≤`; an absent runtime compares as positive
infinity. -/
def keyLE (a b : Option ℚ) : Bool :=
  match a, b with
  | some x, some y => decide (x ≤ y)
  | some _, none => true
  | none, some _ => false
  | none, none => true

/-- Ordering relation on result rows used by the plotter's sort. -/
def hspLE (x y : RunResult) : Prop := keyLE x.2.1 y.2.1 = true

instance : DecidableRel hspLE := fun _ _ =>
  inferInstanceAs (Decidable (_ = true))

/-- Python's `sorted(results["HSP"], key=...)` in `plot_results`: stable
sort of the HSP rows by ascending runtime, absent runtimes last. -/
def sorted_hsp (hsp : List RunResult) : List RunResult :=
  List.insertionSort hspLE hsp

/-- Python's dict comprehension in `plot_results` followed by a key lookup:
with duplicate problem names the later entry overwrites the earlier one, so
the lookup finds the last row with the given name. -/
def sat_lookup (sat : List RunResult) (name : String) : Option RunResult :=
  sat.reverse.find? (fun x => x.1 = name)

/-- Data series of the two charts drawn for one domain by `plot_results`. -/
structure PlotData where
  problem_names : List String
  hsp_runtimes : List (Option ℚ)
  sat_runtimes : List (Option ℚ)
  hsp_makespans : List (Option Nat)
  sat_makespans : List (Option Nat)
deriving DecidableEq

/-- Embedding of the per-domain body of `plot_results` in `script.py`: sort
the HSP rows by runtime, take the problem names in that order, and align the
SAT rows to the same order, filling `None` where a problem name is missing
from the SAT dictionary. -/
def plot_domain (results : DomainResults) : PlotData :=
  let sortedHsp := sorted_hsp results.hsp
  let names := sortedHsp.map (fun x => x.1)
  { problem_names := names,
    hsp_runtimes := sortedHsp.map (fun x => x.2.1),
    sat_runtimes := names.map (fun name =>
      match sat_lookup results.sat name with
      | some x => x.2.1
      | none => none),
    hsp_makespans := sortedHsp.map (fun x => x.2.2),
    sat_makespans := names.map (fun name =>
      match sat_lookup results.sat name with
      | some x => x.2.2
      | none => none) }

/-- File names written by `plot_results` in `script.py`: for each domain in
the results registry, in order, a runtime chart and a makespan chart. -/
def figure_files (all_results : List (String × DomainResults)) :
    List String :=
  all_results.foldl
    (fun figs dr =>
      figs ++ ["figures/" ++ dr.1 ++ "_runtime.png",
               "figures/" ++ dr.1 ++ "_makespan.png"])
    []

/-- Result of the Gradle build attempted by `compile_projects`: it either
succeeds, fails with `CalledProcessError`, or raises some other exception
(the generic handler). -/
inductive GradleResult where
  | ok
  | calledProcessError
  | unexpectedError
deriving DecidableEq

/-- Behaviour of the two external build tools invoked by
`compile_projects` in `script.py`: whether `mvn compile` succeeded, whether
the Gradle wrapper file exists, and what the Gradle build did. -/
structure BuildEnv where
  mvnOk : Bool
  gradleWrapperExists : Bool
  gradle : GradleResult
deriving DecidableEq

/-- Embedding of `compile_projects` from `script.py`: a failed Maven build
returns `False`; a missing Gradle wrapper returns `False`; a Gradle build
failure or unexpected exception returns `False`; otherwise `True`. -/
def compile_projects (e : BuildEnv) : Bool :=
  if !e.mvnOk then false
  else if !e.gradleWrapperExists then false
  else
    match e.gradle with
    | .ok => true
    | .calledProcessError => false
    | .unexpectedError => false

/-- The `BENCHMARKS` dictionary of `script.py`, in insertion order. -/
def BENCHMARKS : List (String × String) :=
  [("blocksworld", "test/resources/benchmarks/pddl/ipc2000/blocks/strips-typed"),
   ("depot", "test/resources/benchmarks/pddl/ipc2002/depots/strips-automatic"),
   ("gripper", "test/resources/benchmarks/pddl/ipc1998/gripper/adl"),
   ("logistics", "test/resources/benchmarks/pddl/ipc1998/logistics/strips-round2")]

/-- Environment of one whole harness run: the build tools' behaviour, the
directory listing of each benchmark path (`os.listdir`; the spec requires
these directories to exist), and, per domain name, planner label and problem
file, the child-process outcome and measured wall-clock time. -/
structure Env where
  build : BuildEnv
  listing : String → List String
  exec : String → String → String → ExecOutcome × ℚ

/-- Observable result of the `__main__` block: the process exit status, the
accumulated `ALL_RESULTS` registry, every planner invocation made, and the
chart files written by `plot_results`. -/
structure MainResult where
  exitCode : Nat
  all_results : List (String × DomainResults)
  invocations : List (String × String)
  figures : List String

/-- Embedding of the `__main__` block of `script.py`: if `compile_projects`
fails, exit with status 1 before any benchmark; otherwise run
`compare_domain` on every configured domain in order, then `plot_results`,
and exit with status 0. -/
def main_block (env : Env) : MainResult :=
  if compile_projects env.build then
    let runs := BENCHMARKS.map (fun b =>
      (b.1, compare_domain b.1 (env.listing b.2) (env.exec b.1)))
    let all_results := runs.map (fun r => (r.1, r.2.results))
    { exitCode := 0,
      all_results := all_results,
      invocations := runs.foldl (fun acc r => acc ++ r.2.invocations) [],
      figures := figure_files all_results }
  else
    { exitCode := 1, all_results := [], invocations := [], figures := [] }

/-- Concrete invocation environment used to instantiate the general
theorems: every invocation times out. -/
def timeoutEnv : String → String → ExecOutcome × ℚ :=
  fun _ _ => (ExecOutcome.timedOut, 0)

/-- Concrete whole-run environment in which both builds succeed, every
benchmark directory lists two problem files, and every invocation times
out. -/
def okEnv : Env :=
  { build := { mvnOk := true, gradleWrapperExists := true,
               gradle := GradleResult.ok },
    listing := fun _ => ["p1", "p2"],
    exec := fun _ => timeoutEnv }

/-- A second build-succeeding environment with different listings, outcomes
and timings, used to instantiate the determinism claim. -/
def okEnv2 : Env :=
  { build := { mvnOk := true, gradleWrapperExists := true,
               gradle := GradleResult.ok },
    listing := fun _ => ["p9"],
    exec := fun _ _ _ => (ExecOutcome.completed "0: a", 7) }

/-- Concrete whole-run environment in which the Maven build fails. -/
def badBuildEnv : Env :=
  { build := { mvnOk := false, gradleWrapperExists := true,
               gradle := GradleResult.ok },
    listing := fun _ => ["p1", "p2"],
    exec := fun _ => timeoutEnv }

/-! ### Facts about the output parser (claim C1) -/

/-- Helper for reasoning about the parser's fold: the maximum of `a` and the
elements of `l` cast to `ℤ`. -/
def foldMaxInt (l : List Nat) (a : Int) : Int :=
  l.foldl (fun (m : Int) (n : Nat) => max m (n : Int)) a

theorem foldMaxInt_nil (a : Int) : foldMaxInt [] a = a := rfl

theorem foldMaxInt_cons (n : Nat) (l : List Nat) (a : Int) :
    foldMaxInt (n :: l) a = foldMaxInt l (max a (n : Int)) := rfl

theorem if_gt_eq_max (a n : Int) : (if n > a then n else a) = max a n := by
  rcases le_or_lt n a with h | h
  · rw [if_neg (not_lt.mpr h), max_eq_left h]
  · rw [if_pos h, max_eq_right h.le]

theorem foldStep_eq (lines : List String) (a : Int) :
    lines.foldl
      (fun max_step line =>
        match matchStep line with
        | some step_num =>
            if (step_num : Int) > max_step then (step_num : Int) else max_step
        | none => max_step)
      a
    = foldMaxInt (lines.filterMap matchStep) a := by
  induction lines generalizing a with
  | nil => rfl
  | cons line rest ih =>
      cases h : matchStep line with
      | none =>
          simp only [List.foldl_cons, List.filterMap_cons, h]
          exact ih a
      | some n =>
          simp only [List.foldl_cons, List.filterMap_cons, h]
          rw [ih, if_gt_eq_max, foldMaxInt_cons]

theorem le_foldMaxInt (l : List Nat) (a : Int) : a ≤ foldMaxInt l a := by
  induction l generalizing a with
  | nil => exact le_refl a
  | cons n rest ih =>
      rw [foldMaxInt_cons]
      exact le_trans (le_max_left a (n : Int)) (ih (max a (n : Int)))

theorem foldMaxInt_le (l : List Nat) (a : Int) :
    ∀ x ∈ l, (x : Int) ≤ foldMaxInt l a := by
  induction l generalizing a with
  | nil => intro x hx; exact absurd hx (List.not_mem_nil x)
  | cons n rest ih =>
      intro x hx
      rw [foldMaxInt_cons]
      rcases List.mem_cons.mp hx with h | h
      · subst h
        exact le_trans (le_max_right a (x : Int)) (le_foldMaxInt rest _)
      · exact ih _ x h

theorem foldMaxInt_cases (l : List Nat) (a : Int) :
    foldMaxInt l a = a ∨ ∃ x ∈ l, foldMaxInt l a = (x : Int) := by
  induction l generalizing a with
  | nil => exact Or.inl rfl
  | cons n rest ih =>
      rw [foldMaxInt_cons]
      rcases ih (max a (n : Int)) with h | ⟨x, hx, hh⟩
      · rcases max_choice a (n : Int) with hm | hm
        · exact Or.inl (by rw [h, hm])
        · exact Or.inr ⟨n, List.mem_cons_self n rest, by rw [h, hm]⟩
      · exact Or.inr ⟨x, List.mem_cons_of_mem n hx, hh⟩

theorem extract_makespan_eq (output : String) :
    extract_makespan output =
      (if foldMaxInt (matchedSteps output) (-1) ≥ 0
       then some (foldMaxInt (matchedSteps output) (-1) + 1).toNat
       else none) := by
  simp only [extract_makespan, matchedSteps]
  rw [foldStep_eq]

/-- C1: for every planner stdout text, `extract_makespan` returns one plus
the maximum step number over all lines whose stripped text matches the
digits-then-colon pattern, and an absent result when no line matches; the
function is total, so no error is raised on malformed input. -/
theorem extract_makespan_spec (output : String) :
    (extract_makespan output = none ↔ matchedSteps output = []) ∧
    (∀ m : Nat, extract_makespan output = some m ↔
      ∃ k, k ∈ matchedSteps output ∧
        (∀ j ∈ matchedSteps output, j ≤ k) ∧ m = k + 1) := by
  rw [extract_makespan_eq output]
  set F := foldMaxInt (matchedSteps output) (-1) with hF
  constructor
  · constructor
    · intro h
      by_contra hne
      rcases List.exists_mem_of_ne_nil _ hne with ⟨x, hx⟩
      have hbig : (x : Int) ≤ F := by
        rw [hF]; exact foldMaxInt_le (matchedSteps output) (-1) x hx
      have hge : F ≥ 0 := le_trans (Nat.cast_nonneg x) hbig
      rw [if_pos hge] at h
      exact Option.some_ne_none _ h
    · intro h
      rw [hF, h, foldMaxInt_nil]
      rw [if_neg (by decide)]
  · intro m
    constructor
    · intro h
      by_cases hge : F ≥ 0
      · rw [if_pos hge] at h
        have hm : (F + 1).toNat = m := Option.some_inj.mp h
        rcases foldMaxInt_cases (matchedSteps output) (-1) with hc | ⟨x, hx, hh⟩
        · rw [← hF] at hc; omega
        · rw [← hF] at hh
          refine ⟨x, hx, ?_, ?_⟩
          · intro j hj
            have hj2 : (j : Int) ≤ F := by
              rw [hF]; exact foldMaxInt_le (matchedSteps output) (-1) j hj
            rw [hh] at hj2
            exact_mod_cast hj2
          · omega
      · rw [if_neg hge] at h
        exact Option.noConfusion h
    · rintro ⟨k, hk, hmax, hm⟩
      have hle : (k : Int) ≤ F := by
        rw [hF]; exact foldMaxInt_le (matchedSteps output) (-1) k hk
      have hge : F ≥ 0 := le_trans (Nat.cast_nonneg k) hle
      rw [if_pos hge]
      rcases foldMaxInt_cases (matchedSteps output) (-1) with hc | ⟨x, hx, hh⟩
      · rw [← hF] at hc; omega
      · rw [← hF] at hh
        have hxk : x ≤ k := hmax x hx
        have hFk : F = (k : Int) := by omega
        rw [hFk]
        have : ((k : Int) + 1).toNat = m := by omega
        rw [this]

/-- Witness for C1 at the specification's concrete examples: three step
lines labelled 0, 1 and 3 give makespan 4, and unmatched output gives an
absent result. -/
theorem extract_makespan_spec_witness :
    extract_makespan "0: step\n1: step\n3: step" = some 4 ∧
    extract_makespan "no plan here" = none :=
  ⟨((extract_makespan_spec "0: step\n1: step\n3: step").2 4).mpr
      ⟨3, by decide, by decide, rfl⟩,
   (extract_makespan_spec "no plan here").1.mpr (by decide)⟩

/-! ### Order facts about the Python string comparison (claim C2) -/

theorem char_eq_of_toNat_eq {a b : Char} (h : a.toNat = b.toNat) : a = b :=
  Char.ext (UInt32.ext h)

theorem pyCharsLt_asymm (l₁ l₂ : List Char) (h : pyCharsLt l₁ l₂ = true) :
    pyCharsLt l₂ l₁ = false := by
  induction l₁ generalizing l₂ with
  | nil =>
      cases l₂ with
      | nil => exact Bool.noConfusion h
      | cons b bs => rfl
  | cons a as ih =>
      cases l₂ with
      | nil => exact Bool.noConfusion h
      | cons b bs =>
          simp only [pyCharsLt] at h ⊢
          rcases Nat.lt_trichotomy a.toNat b.toNat with hab | hab | hab
          · rw [if_neg (by omega), if_pos hab]
          · rw [if_neg (by omega), if_neg (by omega)] at h
            rw [if_neg (by omega), if_neg (by omega)]
            exact ih bs h
          · rw [if_neg (by omega), if_pos hab] at h
            exact Bool.noConfusion h

theorem pyCharsLt_trans (l₁ l₂ l₃ : List Char) (h₁ : pyCharsLt l₁ l₂ = true)
    (h₂ : pyCharsLt l₂ l₃ = true) : pyCharsLt l₁ l₃ = true := by
  induction l₁ generalizing l₂ l₃ with
  | nil =>
      cases l₃ with
      | nil =>
          cases l₂ with
          | nil => exact h₂
          | cons b bs => exact Bool.noConfusion h₂
      | cons c cs => rfl
  | cons a as ih =>
      cases l₂ with
      | nil => exact Bool.noConfusion h₁
      | cons b bs =>
          cases l₃ with
          | nil => exact Bool.noConfusion h₂
          | cons c cs =>
              simp only [pyCharsLt] at h₁ h₂ ⊢
              rcases Nat.lt_trichotomy a.toNat b.toNat with hab | hab | hab
              · rcases Nat.lt_trichotomy b.toNat c.toNat with hbc | hbc | hbc
                · rw [if_pos (by omega)]
                · rw [if_pos (by omega)]
                · rw [if_neg (by omega), if_pos hbc] at h₂
                  exact Bool.noConfusion h₂
              · rcases Nat.lt_trichotomy b.toNat c.toNat with hbc | hbc | hbc
                · rw [if_pos (by omega)]
                · rw [if_neg (by omega), if_neg (by omega)] at h₁ h₂ ⊢
                  exact ih bs cs h₁ h₂
                · rw [if_neg (by omega), if_pos hbc] at h₂
                  exact Bool.noConfusion h₂
              · rw [if_neg (by omega), if_pos hab] at h₁
                exact Bool.noConfusion h₁

theorem pyCharsLt_connex (l₁ l₂ : List Char) (h : pyCharsLt l₁ l₂ = false) :
    pyCharsLt l₂ l₁ = true ∨ l₁ = l₂ := by
  induction l₁ generalizing l₂ with
  | nil =>
      cases l₂ with
      | nil => exact Or.inr rfl
      | cons b bs => exact Bool.noConfusion h
  | cons a as ih =>
      cases l₂ with
      | nil => exact Or.inl rfl
      | cons b bs =>
          simp only [pyCharsLt] at h ⊢
          rcases Nat.lt_trichotomy a.toNat b.toNat with hab | hab | hab
          · rw [if_pos hab] at h
            exact Bool.noConfusion h
          · rw [if_neg (by omega), if_neg (by omega)] at h
            rw [if_neg (by omega), if_neg (by omega)]
            rcases ih bs h with h2 | h2
            · exact Or.inl h2
            · exact Or.inr (by rw [char_eq_of_toNat_eq hab, h2])
          · exact Or.inl (by rw [if_pos hab])

instance : IsTotal String strLE :=
  ⟨fun a b => by
    unfold strLE
    cases h : pyCharsLt b.data a.data with
    | false => exact Or.inl rfl
    | true => exact Or.inr (pyCharsLt_asymm _ _ h)⟩

instance : IsTrans String strLE :=
  ⟨fun a b c hab hbc => by
    unfold strLE at hab hbc ⊢
    cases h : pyCharsLt c.data a.data with
    | false => rfl
    | true =>
        rcases pyCharsLt_connex _ _ hab with h1 | h1
        · have h2 := pyCharsLt_trans _ _ _ h h1
          rw [hbc] at h2
          exact Bool.noConfusion h2
        · rw [← h1] at h
          rw [hbc] at h
          exact Bool.noConfusion h⟩

/-- C2: for every domain name and directory listing, `selectProblems` picks
exactly the lexicographically-first `limitFor name` filenames among those
starting with "p": the selection has length `min limit count`, contains only
"p"-files, is sorted, every selected file compares no greater than every
unselected "p"-file, and the limit defaults to 5 for unconfigured domains. -/
theorem selectProblems_spec (name : String) (listing : List String) :
    (selectProblems name listing).length
        = min (limitFor name)
            (listing.filter (fun f => pyStartsWith f "p")).length ∧
    (∀ f ∈ selectProblems name listing,
        f ∈ listing.filter (fun f => pyStartsWith f "p")) ∧
    List.Sorted strLE (selectProblems name listing) ∧
    (∀ f ∈ selectProblems name listing,
        ∀ g ∈ listing.filter (fun f => pyStartsWith f "p"),
          g ∉ selectProblems name listing → strLE f g) ∧
    (name ∉ domain_limits.map Prod.fst → limitFor name = 5) := by
  have hperm :=
    List.perm_insertionSort strLE (listing.filter (fun f => pyStartsWith f "p"))
  have hsorted :=
    List.sorted_insertionSort strLE (listing.filter (fun f => pyStartsWith f "p"))
  simp only [selectProblems]
  set sortedAll :=
    List.insertionSort strLE (listing.filter (fun f => pyStartsWith f "p"))
    with hs
  refine ⟨?_, ?_, ?_, ?_, ?_⟩
  · rw [List.length_take, hperm.length_eq]
  · intro f hf
    exact hperm.mem_iff.mp (List.mem_of_mem_take hf)
  · exact hsorted.sublist (List.take_sublist _ _)
  · intro f hf g hg hgn
    have hg2 : g ∈ sortedAll := hperm.mem_iff.mpr hg
    rw [← List.take_append_drop (limitFor name) sortedAll] at hg2
    rcases List.mem_append.mp hg2 with hgt | hgd
    · exact absurd hgt hgn
    · have hap : List.Pairwise strLE
          (sortedAll.take (limitFor name) ++ sortedAll.drop (limitFor name)) := by
        rw [List.take_append_drop]
        exact hsorted
      exact (List.pairwise_append.mp hap).2.2 f hf g hgd
  · intro h
    simp only [domain_limits, List.map_cons, List.map_nil, List.mem_cons,
      List.not_mem_nil, or_false, not_or] at h
    obtain ⟨h1, h2, h3, h4⟩ := h
    have e1 : (name == "blocksworld") = false := beq_eq_false_iff_ne.mpr h1
    have e2 : (name == "gripper") = false := beq_eq_false_iff_ne.mpr h2
    have e3 : (name == "depot") = false := beq_eq_false_iff_ne.mpr h3
    have e4 : (name == "logistics") = false := beq_eq_false_iff_ne.mpr h4
    simp [limitFor, domain_limits, List.lookup, e1, e2, e3, e4]

/-- Witness for C2: with limit 2 (domain "depot") and five available
problem files, the two lexicographically-first files are selected, and an
unconfigured domain gets the default limit 5. -/
theorem selectProblems_spec_witness :
    "p1" ∈ List.filter (fun f => pyStartsWith f "p")
        ["p3", "p1", "p5", "p2", "p4"] ∧
    limitFor "unknown" = 5 ∧
    selectProblems "depot" ["p3", "p1", "p5", "p2", "p4"] = ["p1", "p2"] :=
  ⟨(selectProblems_spec "depot" ["p3", "p1", "p5", "p2", "p4"]).2.1
      "p1" (by decide),
   (selectProblems_spec "unknown" []).2.2.2.2 (by decide),
   by decide⟩

/-! ### Facts about the planner invoker (claims C3, C4, C9) -/

/-- C3: a timed-out or otherwise failed child process makes `run_planner`
return absent runtime and absent makespan, with a console message naming the
planner and problem; the embedding is a total function, so no exception
propagates. -/
theorem run_planner_failure_spec (planner_type problem_file : String)
    (outcome : ExecOutcome) (elapsed : ℚ)
    (h : outcome = ExecOutcome.timedOut ∨
      ∃ msg, outcome = ExecOutcome.failed msg) :
    (run_planner planner_type problem_file outcome elapsed).runtime = none ∧
    (run_planner planner_type problem_file outcome elapsed).makespan = none ∧
    ((run_planner planner_type problem_file outcome elapsed).log
        = ["Timeout: " ++ planner_type ++ " on " ++ problem_file] ∨
      ∃ msg, (run_planner planner_type problem_file outcome elapsed).log
        = ["Error running " ++ planner_type ++ " on " ++ problem_file
            ++ ": " ++ msg]) := by
  unfold run_planner run_planner_try
  by_cases hv : planner_type = "HSP" ∨ planner_type = "SAT"
  · rw [if_pos hv]
    rcases h with h | ⟨msg, h⟩
    · subst h
      exact ⟨rfl, rfl, Or.inl rfl⟩
    · subst h
      exact ⟨rfl, rfl, Or.inr ⟨msg, rfl⟩⟩
  · rw [if_neg hv]
    exact ⟨rfl, rfl, Or.inr ⟨"Invalid planner type", rfl⟩⟩

/-- Witness for C3: a timed-out HSP invocation yields absent data and a
logged message. -/
theorem run_planner_failure_spec_witness :
    (run_planner "HSP" "p01.pddl" ExecOutcome.timedOut 0).runtime = none ∧
    (run_planner "HSP" "p01.pddl" ExecOutcome.timedOut 0).makespan = none ∧
    ((run_planner "HSP" "p01.pddl" ExecOutcome.timedOut 0).log
        = ["Timeout: " ++ "HSP" ++ " on " ++ "p01.pddl"] ∨
      ∃ msg, (run_planner "HSP" "p01.pddl" ExecOutcome.timedOut 0).log
        = ["Error running " ++ "HSP" ++ " on " ++ "p01.pddl"
            ++ ": " ++ msg]) :=
  run_planner_failure_spec "HSP" "p01.pddl" ExecOutcome.timedOut 0 (Or.inl rfl)

/-- C4: when the child process completes normally but its output has no
parseable plan line, `run_planner` returns the measured runtime together
with an absent makespan: unparseable output does not discard the runtime. -/
theorem run_planner_unparseable_spec (planner_type problem_file stdout : String)
    (elapsed : ℚ) (hv : planner_type = "HSP" ∨ planner_type = "SAT")
    (hm : extract_makespan stdout = none) :
    (run_planner planner_type problem_file
        (ExecOutcome.completed stdout) elapsed).runtime = some elapsed ∧
    (run_planner planner_type problem_file
        (ExecOutcome.completed stdout) elapsed).makespan = none := by
  unfold run_planner run_planner_try
  rw [if_pos hv]
  exact ⟨rfl, hm⟩

/-- Witness for C4: a completed HSP run with unmatched output keeps its
runtime and records no makespan. -/
theorem run_planner_unparseable_spec_witness :
    (run_planner "HSP" "p01.pddl"
        (ExecOutcome.completed "garbage") 5).runtime = some 5 ∧
    (run_planner "HSP" "p01.pddl"
        (ExecOutcome.completed "garbage") 5).makespan = none :=
  run_planner_unparseable_spec "HSP" "p01.pddl" "garbage" 5
    (Or.inl rfl) (by decide)

/-- C9: for any planner type other than "HSP" and "SAT", the `try` block
raises `ValueError`, which the generic handler catches: `run_planner`
returns absent runtime and makespan and logs the generic error message,
indistinguishable from an execution failure. -/
theorem run_planner_invalid_type_spec (planner_type problem_file : String)
    (outcome : ExecOutcome) (elapsed : ℚ)
    (h1 : planner_type ≠ "HSP") (h2 : planner_type ≠ "SAT") :
    run_planner_try planner_type outcome elapsed
        = Except.error (PyExc.valueError "Invalid planner type") ∧
    (run_planner planner_type problem_file outcome elapsed).runtime = none ∧
    (run_planner planner_type problem_file outcome elapsed).makespan = none ∧
    (run_planner planner_type problem_file outcome elapsed).log
        = ["Error running " ++ planner_type ++ " on " ++ problem_file
            ++ ": " ++ "Invalid planner type"] := by
  have hv : ¬ (planner_type = "HSP" ∨ planner_type = "SAT") := by
    rintro (h | h)
    · exact h1 h
    · exact h2 h
  have ht : run_planner_try planner_type outcome elapsed
      = Except.error (PyExc.valueError "Invalid planner type") := by
    unfold run_planner_try
    rw [if_neg hv]
  refine ⟨ht, ?_, ?_, ?_⟩ <;>
    simp [run_planner, ht, excMessage]

/-- Witness for C9: planner type "FD" yields the caught-ValueError path. -/
theorem run_planner_invalid_type_spec_witness :
    run_planner_try "FD" ExecOutcome.timedOut 1
        = Except.error (PyExc.valueError "Invalid planner type") ∧
    (run_planner "FD" "p01.pddl" ExecOutcome.timedOut 1).runtime = none ∧
    (run_planner "FD" "p01.pddl" ExecOutcome.timedOut 1).makespan = none ∧
    (run_planner "FD" "p01.pddl" ExecOutcome.timedOut 1).log
        = ["Error running " ++ "FD" ++ " on " ++ "p01.pddl"
            ++ ": " ++ "Invalid planner type"] :=
  run_planner_invalid_type_spec "FD" "p01.pddl" ExecOutcome.timedOut 1
    (by decide) (by decide)

/-! ### Facts about the results plotter's ordering (claims C5, C10) -/

theorem keyLE_total (a b : Option ℚ) : keyLE a b = true ∨ keyLE b a = true := by
  cases a <;> cases b
  · exact Or.inl rfl
  · exact Or.inr rfl
  · exact Or.inl rfl
  · rename_i qa qb
    rcases le_total qa qb with h | h
    · exact Or.inl (decide_eq_true h)
    · exact Or.inr (decide_eq_true h)

theorem keyLE_trans (a b c : Option ℚ) (h1 : keyLE a b = true)
    (h2 : keyLE b c = true) : keyLE a c = true := by
  cases a <;> cases b <;> cases c
  · exact rfl
  · exact Bool.noConfusion h2
  · exact Bool.noConfusion h1
  · exact Bool.noConfusion h1
  · exact rfl
  · exact Bool.noConfusion h2
  · exact rfl
  · rename_i qa qb qc
    simp only [keyLE, decide_eq_true_eq] at h1 h2 ⊢
    exact le_trans h1 h2

instance : IsTotal RunResult hspLE :=
  ⟨fun x y => keyLE_total x.2.1 y.2.1⟩

instance : IsTrans RunResult hspLE :=
  ⟨fun _ _ _ h1 h2 => keyLE_trans _ _ _ h1 h2⟩

/-- C5: the plotter reorders each domain's problems by ascending runtime of
the first planner (HSP), absent runtimes sorting last: the sorted sequence
is a permutation of the collected rows, sorted under the absent-last runtime
comparison, and on the specification's example runtimes the plotted order is
p03, p01, p02. -/
theorem plot_order_spec :
    (∀ hsp : List RunResult,
      (sorted_hsp hsp).Perm hsp ∧ List.Sorted hspLE (sorted_hsp hsp)) ∧
    (plot_domain
        { hsp := [("p01", some 2, none), ("p02", none, none),
                  ("p03", some 1, none)],
          sat := [] }).problem_names = ["p03", "p01", "p02"] := by
  constructor
  · intro hsp
    exact ⟨List.perm_insertionSort hspLE hsp,
      List.sorted_insertionSort hspLE hsp⟩
  · decide

theorem foldl_results_fst (step : DomainRun → String → DomainRun)
    (hstep : ∀ acc p,
      ((step acc p).results.hsp.map (fun x => x.1)
          = acc.results.hsp.map (fun x => x.1) ++ [p]) ∧
      ((step acc p).results.sat.map (fun x => x.1)
          = acc.results.sat.map (fun x => x.1) ++ [p]))
    (probs : List String) (acc : DomainRun) :
    ((probs.foldl step acc).results.hsp.map (fun x => x.1)
        = acc.results.hsp.map (fun x => x.1) ++ probs) ∧
    ((probs.foldl step acc).results.sat.map (fun x => x.1)
        = acc.results.sat.map (fun x => x.1) ++ probs) := by
  induction probs generalizing acc with
  | nil => simp
  | cons p ps ih =>
      simp only [List.foldl_cons]
      rcases ih (step acc p) with ⟨ih1, ih2⟩
      rw [ih1, ih2, (hstep acc p).1, (hstep acc p).2]
      simp

theorem compare_domain_fst (domain_name : String) (listing : List String)
    (env : String → String → ExecOutcome × ℚ) :
    (compare_domain domain_name listing env).results.hsp.map (fun x => x.1)
        = selectProblems domain_name listing ∧
    (compare_domain domain_name listing env).results.sat.map (fun x => x.1)
        = selectProblems domain_name listing := by
  unfold compare_domain
  apply foldl_results_fst
  intro acc p
  constructor <;> simp

theorem sat_lookup_mem (sat : List RunResult) (name : String)
    (h : name ∈ sat.map (fun x => x.1)) : sat_lookup sat name ≠ none := by
  unfold sat_lookup
  intro hn
  rw [List.find?_eq_none] at hn
  rcases List.mem_map.mp h with ⟨x, hx, hfst⟩
  exact hn x (List.mem_reverse.mpr hx) (decide_eq_true hfst)

/-- C10: for every domain run, the HSP and SAT result sequences carry the
same problem identifiers in the same order (hence equal lengths), and every
problem name on the plotted x-axis is found in the SAT dictionary, so the
plotter's fill-absent branch for a missing SAT entry is never taken. -/
theorem domain_results_aligned (domain_name : String) (listing : List String)
    (env : String → String → ExecOutcome × ℚ) :
    (compare_domain domain_name listing env).results.hsp.map (fun x => x.1)
        = (compare_domain domain_name listing env).results.sat.map
            (fun x => x.1) ∧
    (compare_domain domain_name listing env).results.hsp.length
        = (compare_domain domain_name listing env).results.sat.length ∧
    ∀ name ∈ (plot_domain
        (compare_domain domain_name listing env).results).problem_names,
      sat_lookup (compare_domain domain_name listing env).results.sat name
        ≠ none := by
  obtain ⟨h1, h2⟩ := compare_domain_fst domain_name listing env
  have hfst := h1.trans h2.symm
  refine ⟨hfst, ?_, ?_⟩
  · have hlen := congrArg List.length hfst
    simpa using hlen
  · intro name hname
    apply sat_lookup_mem
    simp only [plot_domain] at hname
    have hperm : (sorted_hsp
        (compare_domain domain_name listing env).results.hsp).Perm
        (compare_domain domain_name listing env).results.hsp :=
      List.perm_insertionSort hspLE _
    have hmem : name ∈ (compare_domain domain_name listing
        env).results.hsp.map (fun x => x.1) :=
      (hperm.map (fun x => x.1)).mem_iff.mp hname
    rw [← hfst]
    exact hmem

/-- Witness for C10 on a concrete domain run: the SAT dictionary lookup
succeeds for a plotted problem name. -/
theorem domain_results_aligned_witness :
    sat_lookup (compare_domain "depot" ["p1", "p2"]
        timeoutEnv).results.sat "p1" ≠ none :=
  (domain_results_aligned "depot" ["p1", "p2"] timeoutEnv).2.2
    "p1" (by decide)

/-! ### Facts about the whole-run control flow (claims C6, C7, C8) -/

/-- C6: if the pre-run build step fails, the process exits with status 1
before any planner invocation and before any figure is written; no benchmark
results are collected. -/
theorem build_failure_aborts (env : Env)
    (h : compile_projects env.build = false) :
    (main_block env).exitCode = 1 ∧
    (main_block env).invocations = [] ∧
    (main_block env).all_results = [] ∧
    (main_block env).figures = [] := by
  simp [main_block, h]

/-- Witness for C6: with a failing Maven build, the run aborts. -/
theorem build_failure_aborts_witness :
    (main_block badBuildEnv).exitCode = 1 ∧
    (main_block badBuildEnv).invocations = [] ∧
    (main_block badBuildEnv).all_results = [] ∧
    (main_block badBuildEnv).figures = [] :=
  build_failure_aborts badBuildEnv (by decide)

/-- C7: if the pre-run build step succeeds, the run completes with exit
status 0 whatever the individual invocation outcomes are, and every
configured domain contributes a result entry covering every selected
problem for both planners: failures become absent data, never aborts. -/
theorem build_success_completes (env : Env)
    (h : compile_projects env.build = true) :
    (main_block env).exitCode = 0 ∧
    (main_block env).all_results.map (fun r => r.1)
        = BENCHMARKS.map (fun b => b.1) ∧
    ∀ b ∈ BENCHMARKS, ∃ res : DomainResults,
      (b.1, res) ∈ (main_block env).all_results ∧
      res.hsp.map (fun x => x.1) = selectProblems b.1 (env.listing b.2) ∧
      res.sat.map (fun x => x.1) = selectProblems b.1 (env.listing b.2) := by
  simp only [main_block, h, if_true]
  refine ⟨?_, ?_, ?_⟩
  · trivial
  · simp [List.map_map]
  · intro b hb
    refine ⟨(compare_domain b.1 (env.listing b.2) (env.exec b.1)).results,
      ?_, (compare_domain_fst b.1 (env.listing b.2) (env.exec b.1)).1,
      (compare_domain_fst b.1 (env.listing b.2) (env.exec b.1)).2⟩
    rw [List.map_map]
    exact List.mem_map_of_mem _ hb

/-- Witness for C7: a successful build gives a zero exit code and one
result entry per configured domain. -/
theorem build_success_completes_witness :
    (main_block okEnv).exitCode = 0 ∧
    (main_block okEnv).all_results.map (fun r => r.1)
        = BENCHMARKS.map (fun b => b.1) :=
  ⟨(build_success_completes okEnv (by decide)).1,
   (build_success_completes okEnv (by decide)).2.1⟩

/-- C8: the set of chart file names is the same across any two runs whose
builds succeed — two files per configured domain, named by domain and
metric — independently of directory contents, invocation outcomes and
timing values. -/
theorem figures_deterministic (env1 env2 : Env)
    (h1 : compile_projects env1.build = true)
    (h2 : compile_projects env2.build = true) :
    (main_block env1).figures = (main_block env2).figures ∧
    (main_block env1).figures =
      ["figures/blocksworld_runtime.png", "figures/blocksworld_makespan.png",
       "figures/depot_runtime.png", "figures/depot_makespan.png",
       "figures/gripper_runtime.png", "figures/gripper_makespan.png",
       "figures/logistics_runtime.png", "figures/logistics_makespan.png"] := by
  have key : ∀ env : Env, compile_projects env.build = true →
      (main_block env).figures =
        ["figures/blocksworld_runtime.png", "figures/blocksworld_makespan.png",
         "figures/depot_runtime.png", "figures/depot_makespan.png",
         "figures/gripper_runtime.png", "figures/gripper_makespan.png",
         "figures/logistics_runtime.png", "figures/logistics_makespan.png"] := by
    intro env h
    unfold main_block
    rw [h]
    rfl
  exact ⟨(key env1 h1).trans (key env2 h2).symm, key env1 h1⟩

/-- Witness for C8: two different successful-build environments produce the
same chart file names. -/
theorem figures_deterministic_witness :
    (main_block okEnv).figures = (main_block okEnv2).figures :=
  (figures_deterministic okEnv okEnv2 (by decide) (by decide)).1
